import Mathlib

/-!
Shallow embedding of the first-order parameter-update rules of
`assignment2/cs231n/optim.py` (sgd, sgd_momentum, nesterov_momentum,
rmsprop, adam), together with theorems settling the specification claims
about them.

Arrays of shape S are modelled as lists of real numbers; the per-parameter
configuration dictionary is modelled as a record of optional entries, one
per key that the rules read or set with `setdefault`.  A second, heap-based
model captures which rules mutate the parameter buffer in place and which
allocate fresh arrays.
-/

namespace Optim

noncomputable section

/-- Elementwise access with default 0, modelling indexing into a numpy array. -/
def elt (xs : List ℝ) (i : ℕ) : ℝ := xs.getD i 0

/-- Scalar times array, as in `mu * v` or `lr * dw`. -/
def smul (c : ℝ) (xs : List ℝ) : List ℝ := xs.map (fun x => c * x)

/-- Elementwise array addition. -/
def arrAdd (xs ys : List ℝ) : List ℝ := List.zipWith (fun a b => a + b) xs ys

/-- Elementwise array subtraction. -/
def arrSub (xs ys : List ℝ) : List ℝ := List.zipWith (fun a b => a - b) xs ys

/-- Elementwise array division, as in `dw / (np.sqrt(cache) + eps)`. -/
def arrDiv (xs ys : List ℝ) : List ℝ := List.zipWith (fun a b => a / b) xs ys

/-- Elementwise square, modelling `np.power(dw, 2)`. -/
def arrPow2 (xs : List ℝ) : List ℝ := xs.map (fun x => x ^ 2)

/-- Elementwise square root, modelling `np.sqrt`. -/
def arrSqrt (xs : List ℝ) : List ℝ := xs.map (fun x => Real.sqrt x)

/-- Array plus broadcast scalar, as in `np.sqrt(cache) + eps`. -/
def addScalar (xs : List ℝ) (c : ℝ) : List ℝ := xs.map (fun x => x + c)

/-- Array divided by broadcast scalar, as in `m / (1 - beta1 ** t)`. -/
def divScalar (xs : List ℝ) (c : ℝ) : List ℝ := xs.map (fun x => x / c)

/-- The per-parameter configuration dictionary of `optim.py`.  Each field is
one key that some update rule reads or sets with `setdefault`; `none` means
the key is absent from the dictionary. -/
structure Config where
  learning_rate : Option ℝ := none
  momentum : Option ℝ := none
  velocity : Option (List ℝ) := none
  decay_rate : Option ℝ := none
  epsilon : Option ℝ := none
  cache : Option (List ℝ) := none
  beta1 : Option ℝ := none
  beta2 : Option ℝ := none
  m : Option (List ℝ) := none
  v : Option (List ℝ) := none
  t : Option ℕ := none

/-- Vanilla stochastic gradient descent: `w -= config[learning_rate] * dw`,
returning the updated weights and the config with the default filled in. -/
def sgd (w dw : List ℝ) (config : Config) : List ℝ × Config :=
  let lr := config.learning_rate.getD 1e-2
  let config := { config with learning_rate := some lr }
  (arrSub w (smul lr dw), config)

/-- SGD with momentum: resolves defaults, computes `v = mu * v - lr * dw` and
`next_w = w + v`, and stores the new velocity back into the config. -/
def sgd_momentum (w dw : List ℝ) (config : Config) : List ℝ × Config :=
  let lr := config.learning_rate.getD 1e-2
  let mu := config.momentum.getD 0.9
  let v0 := config.velocity.getD (List.replicate w.length 0)
  let v := arrSub (smul mu v0) (smul lr dw)
  let next_w := arrAdd w v
  (next_w,
   { config with learning_rate := some lr, momentum := some mu, velocity := some v })

/-- Nesterov momentum: resolves defaults, snapshots the velocity
(`prev_v = v.copy()`), computes `v = mu * prev_v - lr * dw` and
`next_w = w - mu * prev_v + (1 + mu) * v`, and stores the new velocity. -/
def nesterov_momentum (w dw : List ℝ) (config : Config) : List ℝ × Config :=
  let lr := config.learning_rate.getD 1e-2
  let mu := config.momentum.getD 0.9
  let prev_v := config.velocity.getD (List.replicate w.length 0)
  let v := arrSub (smul mu prev_v) (smul lr dw)
  let next_w := arrAdd (arrSub w (smul mu prev_v)) (smul (1 + mu) v)
  (next_w,
   { config with learning_rate := some lr, momentum := some mu, velocity := some v })

/-- RMSProp: resolves defaults, computes
`cache = beta * cache + (1 - beta) * np.power(dw, 2)` and
`w -= lr * dw / (np.sqrt(cache) + eps)`, and stores the new cache. -/
def rmsprop (w dw : List ℝ) (config : Config) : List ℝ × Config :=
  let lr := config.learning_rate.getD 1e-2
  let beta := config.decay_rate.getD 0.99
  let eps := config.epsilon.getD 1e-8
  let cache0 := config.cache.getD (List.replicate w.length 0)
  let cache := arrAdd (smul beta cache0) (smul (1 - beta) (arrPow2 dw))
  let next_w := arrSub w (arrDiv (smul lr dw) (addScalar (arrSqrt cache) eps))
  (next_w,
   { config with learning_rate := some lr, decay_rate := some beta,
                 epsilon := some eps, cache := some cache })

/-- Adam: resolves defaults, computes the moment updates
`m = beta1 * m + (1 - beta1) * dw`, `v = beta2 * v + (1 - beta2) * dw ** 2`,
the bias corrections `mt = m / (1 - beta1 ** t)`, `vt = v / (1 - beta2 ** t)`
with the pre-increment counter `t`, then
`w -= lr * mt / (np.sqrt(vt) + eps)`, and stores `m`, `v` and `t + 1`. -/
def adam (w dw : List ℝ) (config : Config) : List ℝ × Config :=
  let lr := config.learning_rate.getD 1e-3
  let beta1 := config.beta1.getD 0.9
  let beta2 := config.beta2.getD 0.999
  let eps := config.epsilon.getD 1e-8
  let m0 := config.m.getD (List.replicate w.length 0)
  let v0 := config.v.getD (List.replicate w.length 0)
  let t := config.t.getD 1
  let m := arrAdd (smul beta1 m0) (smul (1 - beta1) dw)
  let v := arrAdd (smul beta2 v0) (smul (1 - beta2) (arrPow2 dw))
  let mt := divScalar m (1 - beta1 ^ t)
  let vt := divScalar v (1 - beta2 ^ t)
  let next_w := arrSub w (arrDiv (smul lr mt) (addScalar (arrSqrt vt) eps))
  (next_w,
   { config with learning_rate := some lr, beta1 := some beta1, beta2 := some beta2,
                 epsilon := some eps, m := some m, v := some v, t := some (t + 1) })

/-! Section: Pointwise access lemmas for the array operations -/

theorem elt_map (f : ℝ → ℝ) (xs : List ℝ) (i : ℕ) (h : i < xs.length) :
    elt (xs.map f) i = f (elt xs i) := by
  simp [elt, List.getD, List.getElem?_map, List.getElem?_eq_getElem h]

theorem elt_zipWith (f : ℝ → ℝ → ℝ) (xs ys : List ℝ) (i : ℕ)
    (h1 : i < xs.length) (h2 : i < ys.length) :
    elt (List.zipWith f xs ys) i = f (elt xs i) (elt ys i) := by
  have h : i < (List.zipWith f xs ys).length := by
    simp only [List.length_zipWith]; omega
  simp only [elt]
  rw [List.getD_eq_getElem _ _ h, List.getD_eq_getElem _ _ h1, List.getD_eq_getElem _ _ h2]
  exact List.getElem_zipWith

theorem elt_replicate (n i : ℕ) (a : ℝ) (h : i < n) :
    elt (List.replicate n a) i = a := by
  simp [elt, List.getD, List.getElem?_eq_getElem, h]

theorem elt_smul (c : ℝ) (xs : List ℝ) (i : ℕ) (h : i < xs.length) :
    elt (smul c xs) i = c * elt xs i := elt_map _ xs i h

theorem elt_arrAdd (xs ys : List ℝ) (i : ℕ) (h1 : i < xs.length) (h2 : i < ys.length) :
    elt (arrAdd xs ys) i = elt xs i + elt ys i := elt_zipWith _ xs ys i h1 h2

theorem elt_arrSub (xs ys : List ℝ) (i : ℕ) (h1 : i < xs.length) (h2 : i < ys.length) :
    elt (arrSub xs ys) i = elt xs i - elt ys i := elt_zipWith _ xs ys i h1 h2

theorem elt_arrDiv (xs ys : List ℝ) (i : ℕ) (h1 : i < xs.length) (h2 : i < ys.length) :
    elt (arrDiv xs ys) i = elt xs i / elt ys i := elt_zipWith _ xs ys i h1 h2

theorem elt_arrPow2 (xs : List ℝ) (i : ℕ) (h : i < xs.length) :
    elt (arrPow2 xs) i = (elt xs i) ^ 2 := elt_map _ xs i h

theorem elt_arrSqrt (xs : List ℝ) (i : ℕ) (h : i < xs.length) :
    elt (arrSqrt xs) i = Real.sqrt (elt xs i) := elt_map _ xs i h

theorem elt_addScalar (xs : List ℝ) (c : ℝ) (i : ℕ) (h : i < xs.length) :
    elt (addScalar xs c) i = elt xs i + c := elt_map _ xs i h

theorem elt_divScalar (xs : List ℝ) (c : ℝ) (i : ℕ) (h : i < xs.length) :
    elt (divScalar xs c) i = elt xs i / c := elt_map _ xs i h

theorem length_smul (c : ℝ) (xs : List ℝ) : (smul c xs).length = xs.length :=
  List.length_map xs _

theorem length_arrAdd (xs ys : List ℝ) :
    (arrAdd xs ys).length = min xs.length ys.length := List.length_zipWith _ xs ys

theorem length_arrSub (xs ys : List ℝ) :
    (arrSub xs ys).length = min xs.length ys.length := List.length_zipWith _ xs ys

theorem length_arrDiv (xs ys : List ℝ) :
    (arrDiv xs ys).length = min xs.length ys.length := List.length_zipWith _ xs ys

theorem length_arrPow2 (xs : List ℝ) : (arrPow2 xs).length = xs.length :=
  List.length_map xs _

theorem length_arrSqrt (xs : List ℝ) : (arrSqrt xs).length = xs.length :=
  List.length_map xs _

theorem length_addScalar (xs : List ℝ) (c : ℝ) : (addScalar xs c).length = xs.length :=
  List.length_map xs _

theorem length_divScalar (xs : List ℝ) (c : ℝ) : (divScalar xs c).length = xs.length :=
  List.length_map xs _

/-! Section: Constant-array propagation lemmas -/

theorem smul_replicate (c : ℝ) (n : ℕ) (a : ℝ) :
    smul c (List.replicate n a) = List.replicate n (c * a) := by
  simp [smul, List.map_replicate]

theorem arrPow2_replicate (n : ℕ) (a : ℝ) :
    arrPow2 (List.replicate n a) = List.replicate n (a ^ 2) := by
  simp [arrPow2, List.map_replicate]

theorem arrSqrt_replicate (n : ℕ) (a : ℝ) :
    arrSqrt (List.replicate n a) = List.replicate n (Real.sqrt a) := by
  simp [arrSqrt, List.map_replicate]

theorem addScalar_replicate (n : ℕ) (a c : ℝ) :
    addScalar (List.replicate n a) c = List.replicate n (a + c) := by
  simp [addScalar, List.map_replicate]

theorem divScalar_replicate (n : ℕ) (a c : ℝ) :
    divScalar (List.replicate n a) c = List.replicate n (a / c) := by
  simp [divScalar, List.map_replicate]

theorem arrAdd_replicate (n : ℕ) (a b : ℝ) :
    arrAdd (List.replicate n a) (List.replicate n b) = List.replicate n (a + b) := by
  simp [arrAdd, List.zipWith_replicate]

theorem arrSub_replicate (n : ℕ) (a b : ℝ) :
    arrSub (List.replicate n a) (List.replicate n b) = List.replicate n (a - b) := by
  simp [arrSub, List.zipWith_replicate]

theorem arrDiv_replicate (n : ℕ) (a b : ℝ) :
    arrDiv (List.replicate n a) (List.replicate n b) = List.replicate n (a / b) := by
  simp [arrDiv, List.zipWith_replicate]

theorem arrSub_replicate_zero (w : List ℝ) :
    arrSub w (List.replicate w.length 0) = w := by
  induction w with
  | nil => rfl
  | cons x xs ih => simp [arrSub, List.replicate_succ] at ih ⊢; exact ih

theorem arrAdd_replicate_zero (w : List ℝ) :
    arrAdd w (List.replicate w.length 0) = w := by
  induction w with
  | nil => rfl
  | cons x xs ih => simp [arrAdd, List.replicate_succ] at ih ⊢; exact ih

/-! Section: Claim C1: the Adam update -/

/-- C1: for every call to `adam` with resolved config, the stored first moment is
`beta1 * m + (1 - beta1) * dw`, the stored second moment is
`beta2 * v + (1 - beta2) * dw ^ 2`, the stored counter is `t + 1` with `t` the
pre-increment value, and elementwise
`next_w = w - lr * (m1 / (1 - beta1 ^ t)) / (sqrt (v1 / (1 - beta2 ^ t)) + eps)`;
moreover starting from `t = 1` the counter equals 3 after two calls, and at step 1
(zero first moment, `t = 1`, `beta1` different from 1) the bias-corrected first
moment equals `dw` exactly. -/
theorem adam_update_spec :
    (∀ (w dw m0 v0 : List ℝ) (lr b1 b2 eps : ℝ) (t : ℕ) (cfg : Config),
      cfg.learning_rate = some lr → cfg.beta1 = some b1 → cfg.beta2 = some b2 →
      cfg.epsilon = some eps → cfg.m = some m0 → cfg.v = some v0 → cfg.t = some t →
      dw.length = w.length → m0.length = w.length → v0.length = w.length →
      (adam w dw cfg).2.m = some (arrAdd (smul b1 m0) (smul (1 - b1) dw)) ∧
      (adam w dw cfg).2.v = some (arrAdd (smul b2 v0) (smul (1 - b2) (arrPow2 dw))) ∧
      (adam w dw cfg).2.t = some (t + 1) ∧
      ∀ i, i < w.length →
        elt (adam w dw cfg).1 i =
          elt w i -
            lr * ((b1 * elt m0 i + (1 - b1) * elt dw i) / (1 - b1 ^ t)) /
              (Real.sqrt ((b2 * elt v0 i + (1 - b2) * elt dw i ^ 2) / (1 - b2 ^ t)) + eps)) ∧
    (∀ (w1 dw1 w2 dw2 : List ℝ) (cfg : Config), cfg.t = some 1 →
      (adam w2 dw2 (adam w1 dw1 cfg).2).2.t = some 3) ∧
    (∀ (w dw : List ℝ) (b1 : ℝ) (cfg : Config),
      cfg.beta1 = some b1 → cfg.t = some 1 → cfg.m = some (List.replicate w.length 0) →
      b1 ≠ 1 → dw.length = w.length →
      ∀ i, i < w.length →
        elt (((adam w dw cfg).2.m).getD []) i / (1 - b1 ^ 1) = elt dw i) := by
  refine ⟨?_, ?_, ?_⟩
  · intro w dw m0 v0 lr b1 b2 eps t cfg hlr hb1 hb2 heps hm hv ht hdw hlm hlv
    refine ⟨by simp [adam, hlr, hb1, hb2, heps, hm, hv, ht],
            by simp [adam, hlr, hb1, hb2, heps, hm, hv, ht],
            by simp [adam, hlr, hb1, hb2, heps, hm, hv, ht], ?_⟩
    intro i hi
    simp only [adam, hlr, hb1, hb2, heps, hm, hv, ht, Option.getD_some]
    simp (disch := (first | omega | (simp only [length_arrDiv, length_smul, length_divScalar, length_arrAdd, length_arrPow2, length_arrSqrt, length_addScalar, hdw, hlm, hlv, min_self] <;> omega)))
      only [elt_arrSub, elt_arrDiv, elt_smul, elt_divScalar, elt_arrAdd, elt_addScalar,
            elt_arrSqrt, elt_arrPow2]
  · intro w1 dw1 w2 dw2 cfg ht
    simp [adam, ht]
  · intro w dw b1 cfg hb1 ht hm hb1ne hdw i hi
    simp only [adam, hb1, ht, hm, Option.getD_some]
    rw [elt_arrAdd _ _ i
        (by rw [length_smul, List.length_replicate]; exact hi)
        (by rw [length_smul, hdw]; exact hi),
      elt_smul _ _ i (by rw [List.length_replicate]; exact hi),
      elt_smul _ _ i (by rw [hdw]; exact hi),
      elt_replicate _ _ _ hi]
    field_simp [sub_ne_zero.mpr (Ne.symm hb1ne)]

/-- Witness for C1 at a concrete input: weights `[0]`, gradient `[1]`, fully
resolved config with the documented Adam defaults and counter 1. -/
theorem adam_update_spec_witness :
    (adam [(0 : ℝ)] [1]
        { learning_rate := some 1e-3, beta1 := some 0.9, beta2 := some 0.999,
          epsilon := some 1e-8, m := some [0], v := some [0], t := some 1 }).2.t
        = some 2 ∧
    elt (adam [(0 : ℝ)] [1]
        { learning_rate := some 1e-3, beta1 := some 0.9, beta2 := some 0.999,
          epsilon := some 1e-8, m := some [0], v := some [0], t := some 1 }).1 0
      = elt [(0 : ℝ)] 0 -
          1e-3 * ((0.9 * elt [(0 : ℝ)] 0 + (1 - 0.9) * elt [(1 : ℝ)] 0) / (1 - 0.9 ^ 1)) /
            (Real.sqrt ((0.999 * elt [(0 : ℝ)] 0 + (1 - 0.999) * elt [(1 : ℝ)] 0 ^ 2) /
                (1 - 0.999 ^ 1)) + 1e-8) ∧
    elt ((adam [(0 : ℝ)] [1]
        { learning_rate := some 1e-3, beta1 := some 0.9, beta2 := some 0.999,
          epsilon := some 1e-8, m := some [0], v := some [0], t := some 1 }).2.m.getD []) 0 /
        (1 - (0.9 : ℝ) ^ 1) = elt [(1 : ℝ)] 0 := by
  refine ⟨?_, ?_, ?_⟩
  · exact ((adam_update_spec.1 [0] [1] [0] [0] 1e-3 0.9 0.999 1e-8 1 _
      rfl rfl rfl rfl rfl rfl rfl rfl rfl rfl).2.2.1)
  · exact (adam_update_spec.1 [0] [1] [0] [0] 1e-3 0.9 0.999 1e-8 1 _
      rfl rfl rfl rfl rfl rfl rfl rfl rfl rfl).2.2.2 0 (by norm_num)
  · exact adam_update_spec.2.2 [0] [1] 0.9 _ rfl rfl (by norm_num) (by norm_num)
      (by norm_num) 0 (by norm_num)

/-! Section: Claim C3: the RMSProp update -/

/-- C3: for every call to `rmsprop` with resolved config, the stored cache is
`beta * cache + (1 - beta) * dw ^ 2` elementwise and
`next_w = w - lr * dw / (sqrt cache1 + eps)` with `eps` added to the square
root; in particular one step from a zero cache with constant gradient `g`
stores the cache `(1 - beta) * g ^ 2` and yields
`next_w = w - lr * g / (sqrt ((1 - beta) * g ^ 2) + eps)`. -/
theorem rmsprop_update_spec :
    (∀ (w dw c0 : List ℝ) (lr beta eps : ℝ) (cfg : Config),
      cfg.learning_rate = some lr → cfg.decay_rate = some beta → cfg.epsilon = some eps →
      cfg.cache = some c0 → dw.length = w.length → c0.length = w.length →
      (rmsprop w dw cfg).2.cache
          = some (arrAdd (smul beta c0) (smul (1 - beta) (arrPow2 dw))) ∧
      ∀ i, i < w.length →
        elt (rmsprop w dw cfg).1 i =
          elt w i - lr * elt dw i /
            (Real.sqrt (beta * elt c0 i + (1 - beta) * elt dw i ^ 2) + eps)) ∧
    (∀ (w : List ℝ) (g lr beta eps : ℝ) (cfg : Config),
      cfg.learning_rate = some lr → cfg.decay_rate = some beta → cfg.epsilon = some eps →
      cfg.cache = some (List.replicate w.length 0) →
      (rmsprop w (List.replicate w.length g) cfg).2.cache
          = some (List.replicate w.length ((1 - beta) * g ^ 2)) ∧
      ∀ i, i < w.length →
        elt (rmsprop w (List.replicate w.length g) cfg).1 i =
          elt w i - lr * g / (Real.sqrt ((1 - beta) * g ^ 2) + eps)) := by
  constructor
  · intro w dw c0 lr beta eps cfg hlr hbeta heps hc hdw hlc
    refine ⟨by simp [rmsprop, hlr, hbeta, heps, hc], ?_⟩
    intro i hi
    simp only [rmsprop, hlr, hbeta, heps, hc, Option.getD_some]
    simp (disch := (first | omega | (simp only [length_arrDiv, length_smul, length_divScalar, length_arrAdd, length_arrPow2, length_arrSqrt, length_addScalar, hdw, hlc, min_self] <;> omega)))
      only [elt_arrSub, elt_arrDiv, elt_smul, elt_arrAdd, elt_addScalar,
            elt_arrSqrt, elt_arrPow2]
  · intro w g lr beta eps cfg hlr hbeta heps hc
    constructor
    · simp [rmsprop, hlr, hbeta, heps, hc, smul_replicate, arrPow2_replicate,
            arrAdd_replicate]
    · intro i hi
      simp only [rmsprop, hlr, hbeta, heps, hc, Option.getD_some, smul_replicate,
        arrPow2_replicate, arrAdd_replicate, arrSqrt_replicate, addScalar_replicate,
        arrDiv_replicate, mul_zero, zero_add]
      rw [elt_arrSub _ _ i hi (by simp [hi]), elt_replicate _ _ _ hi]

/-- Witness for C3 at a concrete input: weights `[1]`, gradient `[2]`, resolved
config holding the documented RMSProp defaults and a zero cache. -/
theorem rmsprop_update_spec_witness :
    (rmsprop [(1 : ℝ)] [2]
        { learning_rate := some 1e-2, decay_rate := some 0.99, epsilon := some 1e-8,
          cache := some [0] }).2.cache
        = some (arrAdd (smul 0.99 [0]) (smul (1 - 0.99) (arrPow2 [2]))) ∧
    elt (rmsprop [(1 : ℝ)] (List.replicate [(1 : ℝ)].length 2)
        { learning_rate := some 1e-2, decay_rate := some 0.99, epsilon := some 1e-8,
          cache := some [0] }).1 0
      = elt [(1 : ℝ)] 0 - 1e-2 * 2 / (Real.sqrt ((1 - 0.99) * 2 ^ 2) + 1e-8) := by
  constructor
  · exact (rmsprop_update_spec.1 [1] [2] [0] 1e-2 0.99 1e-8 _
      rfl rfl rfl rfl rfl rfl).1
  · exact (rmsprop_update_spec.2 [1] 2 1e-2 0.99 1e-8 _
      rfl rfl rfl rfl).2 0 (by norm_num)

/-! Section: A heap model of numpy buffers

The numpy arrays live in a heap of buffers addressed by natural numbers.  An
in-place statement such as `w -= ...` writes the buffer of `w`; an expression
such as `mu * v - lr * dw` or `v.copy()` allocates a fresh buffer at the next
free address.  This model captures which update rules mutate the parameter
buffer and which return a freshly allocated one. -/

structure Heap where
  mem : List (List ℝ)

def Heap.read (h : Heap) (r : ℕ) : List ℝ := h.mem.getD r []

def Heap.write (h : Heap) (r : ℕ) (a : List ℝ) : Heap := ⟨h.mem.set r a⟩

def Heap.alloc (h : Heap) (a : List ℝ) : Heap := ⟨h.mem ++ [a]⟩

theorem Heap.length_write (h : Heap) (r : ℕ) (a : List ℝ) :
    (h.write r a).mem.length = h.mem.length := List.length_set h.mem r a

theorem Heap.length_alloc (h : Heap) (a : List ℝ) :
    (h.alloc a).mem.length = h.mem.length + 1 := by
  simp [Heap.alloc]

theorem Heap.read_write_self (h : Heap) (r : ℕ) (a : List ℝ) (hr : r < h.mem.length) :
    (h.write r a).read r = a := by
  simp [Heap.read, Heap.write, List.getD, List.getElem?_set_self, hr]

theorem Heap.read_write_other (h : Heap) (r s : ℕ) (a : List ℝ) (hne : s ≠ r) :
    (h.write r a).read s = h.read s := by
  simp [Heap.read, Heap.write, List.getD, List.getElem?_set_ne (Ne.symm hne)]

theorem Heap.read_alloc_old (h : Heap) (a : List ℝ) (r : ℕ) (hr : r < h.mem.length) :
    (h.alloc a).read r = h.read r := by
  simp [Heap.read, Heap.alloc, List.getD, List.getElem?_append, hr]

theorem Heap.read_alloc_new (h : Heap) (a : List ℝ) :
    (h.alloc a).read h.mem.length = a := by
  simp [Heap.read, Heap.alloc, List.getD]

theorem Heap.read_alloc_at_len (h : Heap) (a : List ℝ) (r : ℕ) (hr : r = h.mem.length) :
    (h.alloc a).read r = a := by
  subst hr; exact Heap.read_alloc_new h a

/-- Heap model of `sgd`: `w -= lr * dw` writes the buffer of `w` in place and
the function returns that same buffer as `next_w`. -/
def sgdH (h : Heap) (wr dwr : ℕ) (lr : ℝ) : ℕ × Heap :=
  let h1 := h.write wr (arrSub (h.read wr) (smul lr (h.read dwr)))
  (wr, h1)

/-- Heap model of `sgd_momentum` with resolved scalars: `v = mu * v - lr * dw`
and `next_w = w + v` both allocate fresh buffers; the buffer of `w` is never
written.  Returns the address of `next_w`, the address of the new velocity,
and the final heap. -/
def sgd_momentumH (h : Heap) (wr dwr vr : ℕ) (mu lr : ℝ) : ℕ × ℕ × Heap :=
  let v1 := arrSub (smul mu (h.read vr)) (smul lr (h.read dwr))
  let nvr := h.mem.length
  let h1 := h.alloc v1
  let nwr := h1.mem.length
  let h2 := h1.alloc (arrAdd (h1.read wr) v1)
  (nwr, nvr, h2)

/-- Heap model of `nesterov_momentum` with resolved scalars: `prev_v = v.copy()`
allocates a snapshot buffer, `v = mu * prev_v - lr * dw` allocates the new
velocity, and `next_w = w - mu * prev_v + (1 + mu) * v` allocates the result;
the buffer of `w` is never written. -/
def nesterov_momentumH (h : Heap) (wr dwr vr : ℕ) (mu lr : ℝ) : ℕ × ℕ × Heap :=
  let pvr := h.mem.length
  let h1 := h.alloc (h.read vr)
  let nvr := h1.mem.length
  let h2 := h1.alloc (arrSub (smul mu (h1.read pvr)) (smul lr (h1.read dwr)))
  let nwr := h2.mem.length
  let h3 := h2.alloc
    (arrAdd (arrSub (h2.read wr) (smul mu (h2.read pvr))) (smul (1 + mu) (h2.read nvr)))
  (nwr, nvr, h3)

/-- Heap model of `rmsprop` with resolved scalars: the new cache is a fresh
buffer, then `w -= lr * dw / (np.sqrt(cache) + eps)` writes the buffer of `w`
in place and that same buffer is returned as `next_w`. -/
def rmspropH (h : Heap) (wr dwr cr : ℕ) (lr beta eps : ℝ) : ℕ × ℕ × Heap :=
  let cache := arrAdd (smul beta (h.read cr)) (smul (1 - beta) (arrPow2 (h.read dwr)))
  let ncr := h.mem.length
  let h1 := h.alloc cache
  let h2 := h1.write wr
    (arrSub (h1.read wr) (arrDiv (smul lr (h1.read dwr)) (addScalar (arrSqrt cache) eps)))
  (wr, ncr, h2)

/-- Heap model of `adam` with resolved scalars: the new moments and the
bias-corrected temporaries are fresh buffers, then
`w -= lr * mt / (np.sqrt(vt) + eps)` writes the buffer of `w` in place and
that same buffer is returned as `next_w`. -/
def adamH (h : Heap) (wr dwr mr vr : ℕ) (lr b1 b2 eps : ℝ) (t : ℕ) : ℕ × ℕ × ℕ × Heap :=
  let m1 := arrAdd (smul b1 (h.read mr)) (smul (1 - b1) (h.read dwr))
  let v1 := arrAdd (smul b2 (h.read vr)) (smul (1 - b2) (arrPow2 (h.read dwr)))
  let mt := divScalar m1 (1 - b1 ^ t)
  let vt := divScalar v1 (1 - b2 ^ t)
  let nmr := h.mem.length
  let h1 := h.alloc m1
  let nvr := h1.mem.length
  let h2 := h1.alloc v1
  let h3 := h2.alloc mt
  let h4 := h3.alloc vt
  let h5 := h4.write wr
    (arrSub (h4.read wr) (arrDiv (smul lr mt) (addScalar (arrSqrt vt) eps)))
  (wr, nmr, nvr, h5)

/-- Two arrays of equal length with equal entries are equal. -/
theorem eq_of_elt (l1 l2 : List ℝ) (hlen : l1.length = l2.length)
    (h : ∀ i, i < l1.length → elt l1 i = elt l2 i) : l1 = l2 := by
  apply List.ext_getElem hlen
  intro i h1 h2
  have he := h i h1
  rwa [elt, elt, List.getD_eq_getElem _ _ h1, List.getD_eq_getElem _ _ h2] at he

/-! Section: Pointwise characterizations of the momentum-family results -/

theorem sgd_next_length (w dw : List ℝ) (cfg : Config) (hdw : dw.length = w.length) :
    (sgd w dw cfg).1.length = w.length := by
  simp [sgd, length_arrSub, length_smul, hdw]

theorem sgd_next_elt (w dw : List ℝ) (lr : ℝ) (cfg : Config)
    (hlr : cfg.learning_rate = some lr) (hdw : dw.length = w.length)
    (i : ℕ) (hi : i < w.length) :
    elt (sgd w dw cfg).1 i = elt w i - lr * elt dw i := by
  simp only [sgd, hlr, Option.getD_some]
  simp (disch := (first | omega | (simp only [length_arrSub, length_smul, hdw, min_self] <;> omega)))
    only [elt_arrSub, elt_smul]

theorem sgd_momentum_next_length (w dw v0 : List ℝ) (cfg : Config)
    (hv : cfg.velocity = some v0) (hdw : dw.length = w.length)
    (hlv : v0.length = w.length) :
    (sgd_momentum w dw cfg).1.length = w.length := by
  simp [sgd_momentum, hv, length_arrAdd, length_arrSub, length_smul, hdw, hlv]

theorem sgd_momentum_next_elt (w dw v0 : List ℝ) (mu lr : ℝ) (cfg : Config)
    (hlr : cfg.learning_rate = some lr) (hmu : cfg.momentum = some mu)
    (hv : cfg.velocity = some v0) (hdw : dw.length = w.length)
    (hlv : v0.length = w.length) (i : ℕ) (hi : i < w.length) :
    elt (sgd_momentum w dw cfg).1 i = elt w i + (mu * elt v0 i - lr * elt dw i) := by
  simp only [sgd_momentum, hlr, hmu, hv, Option.getD_some]
  simp (disch := (first | omega | (simp only [length_arrSub, length_arrAdd, length_smul, hdw, hlv, min_self] <;> omega)))
    only [elt_arrAdd, elt_arrSub, elt_smul]

theorem nesterov_next_length (w dw v0 : List ℝ) (cfg : Config)
    (hv : cfg.velocity = some v0) (hdw : dw.length = w.length)
    (hlv : v0.length = w.length) :
    (nesterov_momentum w dw cfg).1.length = w.length := by
  simp [nesterov_momentum, hv, length_arrAdd, length_arrSub, length_smul, hdw, hlv]

theorem nesterov_next_elt (w dw v0 : List ℝ) (mu lr : ℝ) (cfg : Config)
    (hlr : cfg.learning_rate = some lr) (hmu : cfg.momentum = some mu)
    (hv : cfg.velocity = some v0) (hdw : dw.length = w.length)
    (hlv : v0.length = w.length) (i : ℕ) (hi : i < w.length) :
    elt (nesterov_momentum w dw cfg).1 i =
      elt w i - mu * elt v0 i + (1 + mu) * (mu * elt v0 i - lr * elt dw i) := by
  simp only [nesterov_momentum, hlr, hmu, hv, Option.getD_some]
  simp (disch := (first | omega | (simp only [length_arrSub, length_arrAdd, length_smul, hdw, hlv, min_self] <;> omega)))
    only [elt_arrAdd, elt_arrSub, elt_smul]

/-! Section: Claim C4: the Nesterov momentum update -/

/-- C4: for every call to `nesterov_momentum` with resolved config, the stored
velocity is `v1 = mu * v_prev - lr * dw` computed from the snapshot of the
incoming velocity, and elementwise
`next_w = w - mu * v_prev + (1 + mu) * v1`; in the heap model, the snapshot
`prev_v = v.copy()` is a fresh buffer whose contents equal the incoming
velocity, the buffer written back as the new velocity is distinct from both
the snapshot and the old velocity buffer, and the call leaves the contents of
the snapshot and of the old velocity buffer unchanged. -/
theorem nesterov_update_spec :
    (∀ (w dw v0 : List ℝ) (mu lr : ℝ) (cfg : Config),
      cfg.learning_rate = some lr → cfg.momentum = some mu → cfg.velocity = some v0 →
      dw.length = w.length → v0.length = w.length →
      (nesterov_momentum w dw cfg).2.velocity
          = some (arrSub (smul mu v0) (smul lr dw)) ∧
      ∀ i, i < w.length →
        elt (nesterov_momentum w dw cfg).1 i =
          elt w i - mu * elt v0 i + (1 + mu) * (mu * elt v0 i - lr * elt dw i)) ∧
    (∀ (h : Heap) (wr dwr vr : ℕ) (mu lr : ℝ),
      dwr < h.mem.length → vr < h.mem.length →
      (nesterov_momentumH h wr dwr vr mu lr).2.2.read h.mem.length = h.read vr ∧
      (nesterov_momentumH h wr dwr vr mu lr).2.1 ≠ h.mem.length ∧
      (nesterov_momentumH h wr dwr vr mu lr).2.1 ≠ vr ∧
      (nesterov_momentumH h wr dwr vr mu lr).2.2.read
          (nesterov_momentumH h wr dwr vr mu lr).2.1
        = arrSub (smul mu (h.read vr)) (smul lr (h.read dwr)) ∧
      (nesterov_momentumH h wr dwr vr mu lr).2.2.read vr = h.read vr) := by
  constructor
  · intro w dw v0 mu lr cfg hlr hmu hv hdw hlv
    exact ⟨by simp [nesterov_momentum, hlr, hmu, hv],
           nesterov_next_elt w dw v0 mu lr cfg hlr hmu hv hdw hlv⟩
  · intro h wr dwr vr mu lr hdwr hvr
    refine ⟨?_, ?_, ?_, ?_, ?_⟩
    · simp only [nesterov_momentumH]
      rw [Heap.read_alloc_old _ _ _ (by simp only [Heap.length_alloc]; omega),
        Heap.read_alloc_old _ _ _ (by simp only [Heap.length_alloc]; omega),
        Heap.read_alloc_new]
    · simp only [nesterov_momentumH, Heap.length_alloc]
      omega
    · simp only [nesterov_momentumH, Heap.length_alloc]
      omega
    · simp only [nesterov_momentumH]
      rw [Heap.read_alloc_old _ _ _ (by simp only [Heap.length_alloc]; omega),
        Heap.read_alloc_new, Heap.read_alloc_new,
        Heap.read_alloc_old _ _ _ hdwr]
    · simp only [nesterov_momentumH]
      rw [Heap.read_alloc_old _ _ _ (by simp only [Heap.length_alloc]; omega),
        Heap.read_alloc_old _ _ _ (by simp only [Heap.length_alloc]; omega),
        Heap.read_alloc_old _ _ _ hvr]

/-- Witness for C4 at a concrete input: weights `[1]`, gradient `[2]`, resolved
config with momentum one half, and a two-buffer heap. -/
theorem nesterov_update_spec_witness :
    (nesterov_momentum [(1 : ℝ)] [2]
        { learning_rate := some 1e-2, momentum := some 0.5, velocity := some [4] }).2.velocity
        = some (arrSub (smul 0.5 [4]) (smul 1e-2 [2])) ∧
    (nesterov_momentumH ⟨[[(5 : ℝ)], [7]]⟩ 0 1 0 0.5 1e-2).2.2.read 2
        = Heap.read ⟨[[(5 : ℝ)], [7]]⟩ 0 := by
  constructor
  · exact (nesterov_update_spec.1 [1] [2] [4] 0.5 1e-2 _ rfl rfl rfl rfl rfl).1
  · exact (nesterov_update_spec.2 ⟨[[(5 : ℝ)], [7]]⟩ 0 1 0 0.5 1e-2
      (by norm_num) (by norm_num)).1

/-! Section: Claim C5: equivalence with the alternative Nesterov expression -/

/-- Modelled from the spec: the alternative single-step look-ahead expression
`next_w = w - lr * dw + mu * v1` with `v1 = mu * v_prev - lr * dw`, which the
source keeps only as a commented-out variant. -/
def nesterovAltNext (w dw v_prev : List ℝ) (mu lr : ℝ) : List ℝ :=
  let v1 := arrSub (smul mu v_prev) (smul lr dw)
  arrAdd (arrSub w (smul lr dw)) (smul mu v1)

/-- C5: the implemented Nesterov formulation agrees exactly with the
alternative single-step look-ahead expression `w - lr * dw + mu * v1`. -/
theorem nesterov_equiv_alt :
    ∀ (w dw v0 : List ℝ) (mu lr : ℝ) (cfg : Config),
      cfg.learning_rate = some lr → cfg.momentum = some mu → cfg.velocity = some v0 →
      dw.length = w.length → v0.length = w.length →
      (nesterov_momentum w dw cfg).1 = nesterovAltNext w dw v0 mu lr := by
  intro w dw v0 mu lr cfg hlr hmu hv hdw hlv
  apply eq_of_elt
  · simp [nesterov_momentum, nesterovAltNext, hlr, hmu, hv, length_arrAdd,
      length_arrSub, length_smul, hdw, hlv]
  · intro i hh
    have hi : i < w.length := by
      rwa [nesterov_next_length w dw v0 cfg hv hdw hlv] at hh
    rw [nesterov_next_elt w dw v0 mu lr cfg hlr hmu hv hdw hlv i hi]
    simp only [nesterovAltNext]
    simp (disch := (first | omega | (simp only [length_arrSub, length_arrAdd, length_smul, hdw, hlv, min_self] <;> omega)))
      only [elt_arrAdd, elt_arrSub, elt_smul]
    ring

/-- Witness for C5 at a concrete input. -/
theorem nesterov_equiv_alt_witness :
    (nesterov_momentum [(1 : ℝ)] [2]
        { learning_rate := some 1e-2, momentum := some 0.5, velocity := some [4] }).1
      = nesterovAltNext [(1 : ℝ)] [2] [4] 0.5 1e-2 :=
  nesterov_equiv_alt [1] [2] [4] 0.5 1e-2 _ rfl rfl rfl rfl rfl

/-! Section: Claim C6: the classical momentum update -/

/-- C6: for every call to `sgd_momentum` with resolved config, the returned
`next_w` is `w + v1` with `v1 = mu * v - lr * dw`, and the velocity stored in
the returned config is exactly that same `v1`. -/
theorem sgd_momentum_update_spec :
    ∀ (w dw v0 : List ℝ) (mu lr : ℝ) (cfg : Config),
      cfg.learning_rate = some lr → cfg.momentum = some mu → cfg.velocity = some v0 →
      dw.length = w.length → v0.length = w.length →
      (sgd_momentum w dw cfg).2.velocity = some (arrSub (smul mu v0) (smul lr dw)) ∧
      (sgd_momentum w dw cfg).1 = arrAdd w (arrSub (smul mu v0) (smul lr dw)) ∧
      ∀ i, i < w.length →
        elt (sgd_momentum w dw cfg).1 i = elt w i + (mu * elt v0 i - lr * elt dw i) := by
  intro w dw v0 mu lr cfg hlr hmu hv hdw hlv
  exact ⟨by simp [sgd_momentum, hlr, hmu, hv], by simp [sgd_momentum, hlr, hmu, hv],
         sgd_momentum_next_elt w dw v0 mu lr cfg hlr hmu hv hdw hlv⟩

/-- Witness for C6 at a concrete input. -/
theorem sgd_momentum_update_spec_witness :
    (sgd_momentum [(1 : ℝ)] [2]
        { learning_rate := some 1e-2, momentum := some 0.5, velocity := some [4] }).2.velocity
        = some (arrSub (smul 0.5 [4]) (smul 1e-2 [2])) ∧
    (sgd_momentum [(1 : ℝ)] [2]
        { learning_rate := some 1e-2, momentum := some 0.5, velocity := some [4] }).1
        = arrAdd [(1 : ℝ)] (arrSub (smul 0.5 [4]) (smul 1e-2 [2])) := by
  have hspec := sgd_momentum_update_spec [1] [2] [4] 0.5 1e-2
    { learning_rate := some 1e-2, momentum := some 0.5, velocity := some [4] }
    rfl rfl rfl rfl rfl
  exact ⟨hspec.1, hspec.2.1⟩

/-! Section: Claim C7: zero momentum reduces to SGD -/

/-- C7: with momentum zero, both `sgd_momentum` and `nesterov_momentum` return
the same `next_w` as `sgd` with the same learning rate. -/
theorem momentum_zero_reduces_to_sgd :
    ∀ (w dw v0 : List ℝ) (lr : ℝ) (cfgm cfgs : Config),
      cfgm.learning_rate = some lr → cfgm.momentum = some 0 → cfgm.velocity = some v0 →
      cfgs.learning_rate = some lr →
      dw.length = w.length → v0.length = w.length →
      (sgd_momentum w dw cfgm).1 = (sgd w dw cfgs).1 ∧
      (nesterov_momentum w dw cfgm).1 = (sgd w dw cfgs).1 := by
  intro w dw v0 lr cfgm cfgs hlr hmu hv hlrs hdw hlv
  constructor
  · apply eq_of_elt
    · rw [sgd_momentum_next_length w dw v0 cfgm hv hdw hlv,
        sgd_next_length w dw cfgs hdw]
    · intro i hh
      have hi : i < w.length := by
        rwa [sgd_momentum_next_length w dw v0 cfgm hv hdw hlv] at hh
      rw [sgd_momentum_next_elt w dw v0 0 lr cfgm hlr hmu hv hdw hlv i hi,
        sgd_next_elt w dw lr cfgs hlrs hdw i hi]
      ring
  · apply eq_of_elt
    · rw [nesterov_next_length w dw v0 cfgm hv hdw hlv, sgd_next_length w dw cfgs hdw]
    · intro i hh
      have hi : i < w.length := by
        rwa [nesterov_next_length w dw v0 cfgm hv hdw hlv] at hh
      rw [nesterov_next_elt w dw v0 0 lr cfgm hlr hmu hv hdw hlv i hi,
        sgd_next_elt w dw lr cfgs hlrs hdw i hi]
      ring

/-- Witness for C7 at a concrete input. -/
theorem momentum_zero_reduces_to_sgd_witness :
    (sgd_momentum [(1 : ℝ)] [2]
        { learning_rate := some 1e-2, momentum := some 0, velocity := some [4] }).1
      = (sgd [(1 : ℝ)] [2] { learning_rate := some 1e-2 }).1 ∧
    (nesterov_momentum [(1 : ℝ)] [2]
        { learning_rate := some 1e-2, momentum := some 0, velocity := some [4] }).1
      = (sgd [(1 : ℝ)] [2] { learning_rate := some 1e-2 }).1 :=
  momentum_zero_reduces_to_sgd [1] [2] [4] 1e-2 _ _ rfl rfl rfl rfl rfl rfl

/-! Section: Claim C2: behavior on shape mismatch -/

/-- NumPy semantics of the in-place statement `w -= learning_rate * dw` of
`sgd` for one-dimensional arrays: equal lengths subtract elementwise, a
length-one `dw` is silently broadcast across `w`, and any other length
combination raises, because the in-place result must keep the shape of `w`.
The source contains no shape check of its own. -/
def sgdBroadcast (w dw : List ℝ) (lr : ℝ) : Option (List ℝ) :=
  if dw.length = w.length then some (List.zipWith (fun a b => a - lr * b) w dw)
  else if dw.length = 1 then some (w.map (fun a => a - lr * dw.headD 0))
  else none

/-- C2 counterexample: calling `sgd` with `w` of length 3 and `dw` of length 1
is not rejected: the single gradient entry is silently broadcast across `w`
and the call returns a result. -/
theorem sgd_shape_mismatch_not_rejected :
    [(1 : ℝ), 2, 3].length ≠ [(1 : ℝ)].length ∧
    sgdBroadcast [(1 : ℝ), 2, 3] [1] 1 = some [0, 1, 2] := by
  constructor
  · simp
  · simp only [sgdBroadcast]
    norm_num

/-- C2 amended: the update rules contain no explicit shape validation; the
in-place sgd statement is rejected by numpy only when the gradient length
neither equals the parameter length nor is 1, while a mismatched length-one
gradient is silently broadcast. -/
theorem sgd_shape_mismatch_behavior :
    ∀ (w dw : List ℝ) (lr : ℝ), dw.length ≠ w.length →
      (dw.length ≠ 1 → sgdBroadcast w dw lr = none) ∧
      (dw.length = 1 → sgdBroadcast w dw lr
          = some (w.map (fun a => a - lr * dw.headD 0))) := by
  intro w dw lr hne
  constructor <;> intro h1
  · simp only [sgdBroadcast]
    rw [if_neg hne, if_neg h1]
  · simp only [sgdBroadcast]
    rw [if_neg hne, if_pos h1]

/-- Witness for the amended C2 at concrete inputs: a length-2 gradient against
a length-3 parameter is rejected, a length-1 gradient is broadcast. -/
theorem sgd_shape_mismatch_behavior_witness :
    sgdBroadcast [(1 : ℝ), 2, 3] [1, 2] 1 = none ∧
    sgdBroadcast [(1 : ℝ), 2, 3] [5] 1
      = some ([(1 : ℝ), 2, 3].map (fun a => a - 1 * [(5 : ℝ)].headD 0)) := by
  constructor
  · exact (sgd_shape_mismatch_behavior [1, 2, 3] [1, 2] 1 (by simp)).1 (by simp)
  · exact (sgd_shape_mismatch_behavior [1, 2, 3] [5] 1 (by simp)).2 (by simp)

/-! Section: Claim C8: default resolution into the config -/

/-- C8 counterexample: calling `adam` with an empty config does not leave the
documented default `t = 1` in the returned config: the counter has already
been incremented to 2, so not every populated option holds its documented
default value after the call. -/
theorem adam_empty_config_counterexample :
    (adam [(0 : ℝ)] [1] {}).2.t = some 2 ∧ (adam [(0 : ℝ)] [1] {}).2.t ≠ some 1 := by
  constructor <;> simp [adam]

/-- C8 amended: calling a rule with an empty config populates exactly the
documented option set of that rule; hyperparameters receive the documented
defaults and hyperparameters already present keep their values untouched,
while the state entries of the returned config (velocity, cache, m, v, t)
hold the post-update running state computed from the default initial state
(zero arrays, counter 1) rather than the defaults themselves. -/
theorem config_defaults_resolved :
    (∀ (w dw : List ℝ), (sgd w dw {}).2 = { learning_rate := some 1e-2 }) ∧
    (∀ (w dw : List ℝ), (sgd_momentum w dw {}).2 =
      { learning_rate := some 1e-2, momentum := some 0.9,
        velocity := some (arrSub (smul 0.9 (List.replicate w.length 0)) (smul 1e-2 dw)) }) ∧
    (∀ (w dw : List ℝ), (nesterov_momentum w dw {}).2 =
      { learning_rate := some 1e-2, momentum := some 0.9,
        velocity := some (arrSub (smul 0.9 (List.replicate w.length 0)) (smul 1e-2 dw)) }) ∧
    (∀ (w dw : List ℝ), (rmsprop w dw {}).2 =
      { learning_rate := some 1e-2, decay_rate := some 0.99, epsilon := some 1e-8,
        cache := some (arrAdd (smul 0.99 (List.replicate w.length 0))
          (smul (1 - 0.99) (arrPow2 dw))) }) ∧
    (∀ (w dw : List ℝ), (adam w dw {}).2 =
      { learning_rate := some 1e-3, beta1 := some 0.9, beta2 := some 0.999,
        epsilon := some 1e-8,
        m := some (arrAdd (smul 0.9 (List.replicate w.length 0)) (smul (1 - 0.9) dw)),
        v := some (arrAdd (smul 0.999 (List.replicate w.length 0))
          (smul (1 - 0.999) (arrPow2 dw))),
        t := some 2 }) ∧
    (∀ (w dw : List ℝ) (cfg : Config) (lr : ℝ),
      cfg.learning_rate = some lr →
      (sgd w dw cfg).2.learning_rate = some lr) ∧
    (∀ (w dw : List ℝ) (cfg : Config) (lr mu : ℝ),
      cfg.learning_rate = some lr → cfg.momentum = some mu →
      (sgd_momentum w dw cfg).2.learning_rate = some lr ∧
      (sgd_momentum w dw cfg).2.momentum = some mu) ∧
    (∀ (w dw : List ℝ) (cfg : Config) (lr mu : ℝ),
      cfg.learning_rate = some lr → cfg.momentum = some mu →
      (nesterov_momentum w dw cfg).2.learning_rate = some lr ∧
      (nesterov_momentum w dw cfg).2.momentum = some mu) ∧
    (∀ (w dw : List ℝ) (cfg : Config) (lr beta eps : ℝ),
      cfg.learning_rate = some lr → cfg.decay_rate = some beta →
      cfg.epsilon = some eps →
      (rmsprop w dw cfg).2.learning_rate = some lr ∧
      (rmsprop w dw cfg).2.decay_rate = some beta ∧
      (rmsprop w dw cfg).2.epsilon = some eps) ∧
    (∀ (w dw : List ℝ) (cfg : Config) (lr b1 b2 eps : ℝ),
      cfg.learning_rate = some lr → cfg.beta1 = some b1 → cfg.beta2 = some b2 →
      cfg.epsilon = some eps →
      (adam w dw cfg).2.learning_rate = some lr ∧
      (adam w dw cfg).2.beta1 = some b1 ∧
      (adam w dw cfg).2.beta2 = some b2 ∧
      (adam w dw cfg).2.epsilon = some eps) := by
  refine ⟨?_, ?_, ?_, ?_, ?_, ?_, ?_, ?_, ?_, ?_⟩
  · intro w dw; simp [sgd]
  · intro w dw; simp [sgd_momentum]
  · intro w dw; simp [nesterov_momentum]
  · intro w dw; simp [rmsprop]
  · intro w dw; simp [adam]
  · intro w dw cfg lr hlr
    simp [sgd, hlr]
  · intro w dw cfg lr mu hlr hmu
    exact ⟨by simp [sgd_momentum, hlr], by simp [sgd_momentum, hmu]⟩
  · intro w dw cfg lr mu hlr hmu
    exact ⟨by simp [nesterov_momentum, hlr], by simp [nesterov_momentum, hmu]⟩
  · intro w dw cfg lr beta eps hlr hbeta heps
    exact ⟨by simp [rmsprop, hlr], by simp [rmsprop, hbeta], by simp [rmsprop, heps]⟩
  · intro w dw cfg lr b1 b2 eps hlr hb1 hb2 heps
    exact ⟨by simp [adam, hlr], by simp [adam, hb1], by simp [adam, hb2],
      by simp [adam, heps]⟩

/-- Witness for the amended C8 at a concrete input. -/
theorem config_defaults_resolved_witness :
    (sgd [(1 : ℝ)] [2] {}).2 = { learning_rate := some 1e-2 } ∧
    (sgd_momentum [(1 : ℝ)] [2]
        { learning_rate := some 0.5, momentum := some 0.25 }).2.learning_rate
      = some 0.5 ∧
    (nesterov_momentum [(1 : ℝ)] [2]
        { learning_rate := some 0.5, momentum := some 0.25 }).2.momentum
      = some 0.25 ∧
    (rmsprop [(1 : ℝ)] [2]
        { learning_rate := some 0.5, decay_rate := some 0.75,
          epsilon := some 0.125 }).2.epsilon = some 0.125 ∧
    (adam [(1 : ℝ)] [2]
        { learning_rate := some 0.5, beta1 := some 0.25, beta2 := some 0.75,
          epsilon := some 0.125 }).2.beta1 = some 0.25 := by
  refine ⟨?_, ?_, ?_, ?_, ?_⟩
  · exact config_defaults_resolved.1 [1] [2]
  · exact (config_defaults_resolved.2.2.2.2.2.2.1 [1] [2]
      { learning_rate := some 0.5, momentum := some 0.25 } 0.5 0.25 rfl rfl).1
  · exact (config_defaults_resolved.2.2.2.2.2.2.2.1 [1] [2]
      { learning_rate := some 0.5, momentum := some 0.25 } 0.5 0.25 rfl rfl).2
  · exact (config_defaults_resolved.2.2.2.2.2.2.2.2.1 [1] [2]
      { learning_rate := some 0.5, decay_rate := some 0.75, epsilon := some 0.125 }
      0.5 0.75 0.125 rfl rfl rfl).2.2
  · exact (config_defaults_resolved.2.2.2.2.2.2.2.2.2 [1] [2]
      { learning_rate := some 0.5, beta1 := some 0.25, beta2 := some 0.75,
        epsilon := some 0.125 } 0.5 0.25 0.75 0.125 rfl rfl rfl rfl).2.1

/-! Section: Claim C9: zero gradient causes no drift -/

/-- Two successive calls of an update rule starting from an empty config,
feeding the returned weights and config into the second call. -/
def twice (f : List ℝ → List ℝ → Config → List ℝ × Config) (w dw : List ℝ) :
    List ℝ × Config :=
  let r1 := f w dw {}
  f r1.1 dw r1.2

theorem sgd_zero_grad (w : List ℝ) (cfg : Config) :
    (sgd w (List.replicate w.length 0) cfg).1 = w := by
  simp [sgd, smul_replicate, mul_zero, arrSub_replicate_zero]

theorem sgd_momentum_zero_grad (w : List ℝ) (cfg : Config)
    (hv : cfg.velocity.getD (List.replicate w.length 0) = List.replicate w.length 0) :
    (sgd_momentum w (List.replicate w.length 0) cfg).1 = w ∧
    (sgd_momentum w (List.replicate w.length 0) cfg).2.velocity
      = some (List.replicate w.length 0) := by
  constructor <;>
    simp [sgd_momentum, hv, smul_replicate, mul_zero, arrSub_replicate, sub_zero,
      arrAdd_replicate_zero]

theorem nesterov_zero_grad (w : List ℝ) (cfg : Config)
    (hv : cfg.velocity.getD (List.replicate w.length 0) = List.replicate w.length 0) :
    (nesterov_momentum w (List.replicate w.length 0) cfg).1 = w ∧
    (nesterov_momentum w (List.replicate w.length 0) cfg).2.velocity
      = some (List.replicate w.length 0) := by
  constructor <;>
    simp [nesterov_momentum, hv, smul_replicate, mul_zero, arrSub_replicate, sub_zero,
      arrSub_replicate_zero, arrAdd_replicate_zero]

theorem rmsprop_zero_grad (w : List ℝ) (cfg : Config)
    (hc : cfg.cache.getD (List.replicate w.length 0) = List.replicate w.length 0) :
    (rmsprop w (List.replicate w.length 0) cfg).1 = w ∧
    (rmsprop w (List.replicate w.length 0) cfg).2.cache
      = some (List.replicate w.length 0) := by
  constructor <;>
    simp [rmsprop, hc, smul_replicate, arrPow2_replicate, zero_pow, mul_zero, add_zero,
      zero_add, arrAdd_replicate, arrSqrt_replicate, Real.sqrt_zero, addScalar_replicate,
      arrDiv_replicate, zero_div, arrSub_replicate_zero]

theorem adam_zero_grad (w : List ℝ) (cfg : Config)
    (hm : cfg.m.getD (List.replicate w.length 0) = List.replicate w.length 0)
    (hv : cfg.v.getD (List.replicate w.length 0) = List.replicate w.length 0) :
    (adam w (List.replicate w.length 0) cfg).1 = w ∧
    (adam w (List.replicate w.length 0) cfg).2.m = some (List.replicate w.length 0) ∧
    (adam w (List.replicate w.length 0) cfg).2.v = some (List.replicate w.length 0) := by
  refine ⟨?_, ?_, ?_⟩ <;>
    simp [adam, hm, hv, smul_replicate, arrPow2_replicate, zero_pow, mul_zero, add_zero,
      zero_add, arrAdd_replicate, divScalar_replicate, zero_div, arrSqrt_replicate,
      Real.sqrt_zero, addScalar_replicate, arrDiv_replicate, arrSub_replicate_zero]

/-- C9: calling any rule twice with a zero gradient from an empty config
returns `next_w = w` both times for sgd, momentum and Nesterov, and also for
rmsprop and adam, whose cache and moment estimates stay at zero; no division
blows up, because the adaptive denominators (square root of the stored cache,
respectively of the bias-corrected second moment, plus the stored epsilon)
are strictly positive in every component. -/
theorem zero_gradient_no_drift :
    ∀ (w : List ℝ),
      (twice sgd w (List.replicate w.length 0)).1 = w ∧
      (twice sgd_momentum w (List.replicate w.length 0)).1 = w ∧
      (twice nesterov_momentum w (List.replicate w.length 0)).1 = w ∧
      (twice rmsprop w (List.replicate w.length 0)).1 = w ∧
      (twice rmsprop w (List.replicate w.length 0)).2.cache
        = some (List.replicate w.length 0) ∧
      (twice adam w (List.replicate w.length 0)).1 = w ∧
      (twice adam w (List.replicate w.length 0)).2.m = some (List.replicate w.length 0) ∧
      (twice adam w (List.replicate w.length 0)).2.v = some (List.replicate w.length 0) ∧
      (∀ i, i < w.length →
        0 < elt (addScalar
            (arrSqrt ((rmsprop w (List.replicate w.length 0) {}).2.cache.getD []))
            ((rmsprop w (List.replicate w.length 0) {}).2.epsilon.getD 0)) i) ∧
      (∀ i, i < w.length →
        0 < elt (addScalar
            (arrSqrt (divScalar ((adam w (List.replicate w.length 0) {}).2.v.getD [])
              (1 - (0.999 : ℝ) ^ 1)))
            ((adam w (List.replicate w.length 0) {}).2.epsilon.getD 0)) i) := by
  intro w
  have hsm := sgd_momentum_zero_grad w {} (by simp)
  have hne := nesterov_zero_grad w {} (by simp)
  have hrm := rmsprop_zero_grad w {} (by simp)
  have had := adam_zero_grad w {} (by simp) (by simp)
  have hsm2 := sgd_momentum_zero_grad w (sgd_momentum w (List.replicate w.length 0) {}).2
    (by rw [hsm.2]; simp)
  have hne2 := nesterov_zero_grad w (nesterov_momentum w (List.replicate w.length 0) {}).2
    (by rw [hne.2]; simp)
  have hrm2 := rmsprop_zero_grad w (rmsprop w (List.replicate w.length 0) {}).2
    (by rw [hrm.2]; simp)
  have had2 := adam_zero_grad w (adam w (List.replicate w.length 0) {}).2
    (by rw [had.2.1]; simp) (by rw [had.2.2]; simp)
  refine ⟨?_, ?_, ?_, ?_, ?_, ?_, ?_, ?_, ?_, ?_⟩
  · simp only [twice]
    rw [sgd_zero_grad]
    exact sgd_zero_grad w _
  · simp only [twice]
    rw [hsm.1]
    exact hsm2.1
  · simp only [twice]
    rw [hne.1]
    exact hne2.1
  · simp only [twice]
    rw [hrm.1]
    exact hrm2.1
  · simp only [twice]
    rw [hrm.1]
    exact hrm2.2
  · simp only [twice]
    rw [had.1]
    exact had2.1
  · simp only [twice]
    rw [had.1]
    exact had2.2.1
  · simp only [twice]
    rw [had.1]
    exact had2.2.2
  · intro i hi
    have heps : (rmsprop w (List.replicate w.length 0) {}).2.epsilon = some (1e-8 : ℝ) := by
      simp [rmsprop]
    rw [hrm.2, heps]
    simp only [Option.getD_some, arrSqrt_replicate, Real.sqrt_zero, addScalar_replicate]
    rw [elt_replicate _ _ _ hi]
    norm_num
  · intro i hi
    have heps : (adam w (List.replicate w.length 0) {}).2.epsilon = some (1e-8 : ℝ) := by
      simp [adam]
    rw [had.2.2, heps]
    simp only [Option.getD_some, divScalar_replicate, zero_div, arrSqrt_replicate,
      Real.sqrt_zero, addScalar_replicate]
    rw [elt_replicate _ _ _ hi]
    norm_num

/-! Section: Claim C10: in-place mutation versus fresh allocation -/

/-- C10: in the heap model, `sgd`, `rmsprop` and `adam` write the updated
weights into the buffer of `w` and return that very buffer as `next_w`, so
the caller sees the updated value through the original array; whereas
`sgd_momentum` and `nesterov_momentum` return a freshly allocated buffer and
leave the contents of the buffer of `w` unchanged. -/
theorem in_place_vs_fresh :
    (∀ (h : Heap) (wr dwr : ℕ) (lr : ℝ), wr < h.mem.length →
      (sgdH h wr dwr lr).1 = wr ∧
      (sgdH h wr dwr lr).2.read wr = arrSub (h.read wr) (smul lr (h.read dwr))) ∧
    (∀ (h : Heap) (wr dwr vr : ℕ) (mu lr : ℝ), wr < h.mem.length →
      (sgd_momentumH h wr dwr vr mu lr).1 ≠ wr ∧
      h.mem.length ≤ (sgd_momentumH h wr dwr vr mu lr).1 ∧
      (sgd_momentumH h wr dwr vr mu lr).2.2.read wr = h.read wr) ∧
    (∀ (h : Heap) (wr dwr vr : ℕ) (mu lr : ℝ), wr < h.mem.length →
      (nesterov_momentumH h wr dwr vr mu lr).1 ≠ wr ∧
      h.mem.length ≤ (nesterov_momentumH h wr dwr vr mu lr).1 ∧
      (nesterov_momentumH h wr dwr vr mu lr).2.2.read wr = h.read wr) ∧
    (∀ (h : Heap) (wr dwr cr : ℕ) (lr beta eps : ℝ),
      wr < h.mem.length → dwr < h.mem.length →
      (rmspropH h wr dwr cr lr beta eps).1 = wr ∧
      (rmspropH h wr dwr cr lr beta eps).2.2.read wr
        = arrSub (h.read wr) (arrDiv (smul lr (h.read dwr))
            (addScalar (arrSqrt (arrAdd (smul beta (h.read cr))
              (smul (1 - beta) (arrPow2 (h.read dwr))))) eps))) ∧
    (∀ (h : Heap) (wr dwr mr vr : ℕ) (lr b1 b2 eps : ℝ) (t : ℕ),
      wr < h.mem.length →
      (adamH h wr dwr mr vr lr b1 b2 eps t).1 = wr ∧
      (adamH h wr dwr mr vr lr b1 b2 eps t).2.2.2.read wr
        = arrSub (h.read wr) (arrDiv (smul lr (divScalar
              (arrAdd (smul b1 (h.read mr)) (smul (1 - b1) (h.read dwr))) (1 - b1 ^ t)))
            (addScalar (arrSqrt (divScalar
              (arrAdd (smul b2 (h.read vr)) (smul (1 - b2) (arrPow2 (h.read dwr))))
              (1 - b2 ^ t))) eps))) := by
  refine ⟨?_, ?_, ?_, ?_, ?_⟩
  · intro h wr dwr lr hwr
    refine ⟨rfl, ?_⟩
    simp only [sgdH]
    rw [Heap.read_write_self _ _ _ hwr]
  · intro h wr dwr vr mu lr hwr
    refine ⟨?_, ?_, ?_⟩
    · simp only [sgd_momentumH, Heap.length_alloc]
      omega
    · simp only [sgd_momentumH, Heap.length_alloc]
      omega
    · simp only [sgd_momentumH]
      rw [Heap.read_alloc_old _ _ _ (by simp only [Heap.length_alloc]; omega),
        Heap.read_alloc_old _ _ _ hwr]
  · intro h wr dwr vr mu lr hwr
    refine ⟨?_, ?_, ?_⟩
    · simp only [nesterov_momentumH, Heap.length_alloc]
      omega
    · simp only [nesterov_momentumH, Heap.length_alloc]
      omega
    · simp only [nesterov_momentumH]
      rw [Heap.read_alloc_old _ _ _ (by simp only [Heap.length_alloc]; omega),
        Heap.read_alloc_old _ _ _ (by simp only [Heap.length_alloc]; omega),
        Heap.read_alloc_old _ _ _ hwr]
  · intro h wr dwr cr lr beta eps hwr hdwr
    refine ⟨rfl, ?_⟩
    simp only [rmspropH]
    rw [Heap.read_write_self _ _ _ (by simp only [Heap.length_alloc]; omega),
      Heap.read_alloc_old _ _ _ hwr, Heap.read_alloc_old _ _ _ hdwr]
  · intro h wr dwr mr vr lr b1 b2 eps t hwr
    refine ⟨rfl, ?_⟩
    simp only [adamH]
    rw [Heap.read_write_self _ _ _ (by simp only [Heap.length_alloc]; omega),
      Heap.read_alloc_old _ _ _ (by simp only [Heap.length_alloc]; omega),
      Heap.read_alloc_old _ _ _ (by simp only [Heap.length_alloc]; omega),
      Heap.read_alloc_old _ _ _ (by simp only [Heap.length_alloc]; omega),
      Heap.read_alloc_old _ _ _ hwr]

/-- Witness for C10 at a concrete two-buffer heap. -/
theorem in_place_vs_fresh_witness :
    (sgdH ⟨[[(1 : ℝ), 2], [3, 4]]⟩ 0 1 2).2.read 0
      = arrSub (Heap.read ⟨[[(1 : ℝ), 2], [3, 4]]⟩ 0)
          (smul 2 (Heap.read ⟨[[(1 : ℝ), 2], [3, 4]]⟩ 1)) ∧
    (sgd_momentumH ⟨[[(1 : ℝ), 2], [3, 4]]⟩ 0 1 1 2 3).2.2.read 0
      = Heap.read ⟨[[(1 : ℝ), 2], [3, 4]]⟩ 0 ∧
    (nesterov_momentumH ⟨[[(1 : ℝ), 2], [3, 4]]⟩ 0 1 1 2 3).1 ≠ 0 ∧
    (rmspropH ⟨[[(1 : ℝ), 2], [3, 4]]⟩ 0 1 1 2 3 4).1 = 0 ∧
    (adamH ⟨[[(1 : ℝ), 2], [3, 4]]⟩ 0 1 1 1 2 3 4 5 1).1 = 0 := by
  refine ⟨?_, ?_, ?_, ?_, ?_⟩
  · exact (in_place_vs_fresh.1 ⟨[[(1 : ℝ), 2], [3, 4]]⟩ 0 1 2 (by norm_num)).2
  · exact (in_place_vs_fresh.2.1 ⟨[[(1 : ℝ), 2], [3, 4]]⟩ 0 1 1 2 3 (by norm_num)).2.2
  · exact (in_place_vs_fresh.2.2.1 ⟨[[(1 : ℝ), 2], [3, 4]]⟩ 0 1 1 2 3 (by norm_num)).1
  · exact (in_place_vs_fresh.2.2.2.1 ⟨[[(1 : ℝ), 2], [3, 4]]⟩ 0 1 1 2 3 4
      (by norm_num) (by norm_num)).1
  · exact (in_place_vs_fresh.2.2.2.2 ⟨[[(1 : ℝ), 2], [3, 4]]⟩ 0 1 1 1 2 3 4 5 1
      (by norm_num)).1

/-- Witness for C9 at a concrete input. -/
theorem zero_gradient_no_drift_witness :
    (twice sgd [(1 : ℝ), 2] (List.replicate [(1 : ℝ), 2].length 0)).1 = [(1 : ℝ), 2] ∧
    0 < elt (addScalar
        (arrSqrt ((rmsprop [(1 : ℝ), 2]
          (List.replicate [(1 : ℝ), 2].length 0) {}).2.cache.getD []))
        ((rmsprop [(1 : ℝ), 2]
          (List.replicate [(1 : ℝ), 2].length 0) {}).2.epsilon.getD 0)) 0 :=
  ⟨(zero_gradient_no_drift [1, 2]).1,
   (zero_gradient_no_drift [1, 2]).2.2.2.2.2.2.2.2.1 0 (by norm_num)⟩

end

end Optim
